import Mathlib

/-!
Verification of the browser-pool / rate-limiter / cache core of the
mcp-google-search server, shallowly embedded from
`src/infrastructure/connection-pool.ts`, `src/infrastructure/rate-limiter.ts`,
`src/infrastructure/cache-manager.ts` (compiled copy), and the orchestration in
`src/services/search.ts` / `src/services/extraction.ts`.

The JavaScript runtime is single-threaded with cooperative concurrency: code
between two `await`s runs atomically, and every `await` is a suspension point
at which any other pending logical operation may run.  The pool model below
therefore cuts `BrowserPool.acquire` / `createBrowser` / `release` into their
atomic (await-free) segments and lets traces interleave the segments of
several callers.
-/

/-! ## BrowserPool (`connection-pool.ts`) as an interleaving machine -/

/-- Pool configuration: `maxSize` (env `BROWSER_POOL_MAX`, default 5) and
`minSize` (env `BROWSER_POOL_MIN`, default 1). -/
structure PoolCfg where
  maxSize : Nat
  minSize : Nat
deriving DecidableEq

/-- Program counter of one logical caller of `acquire`:
`idle` (not inside `acquire`), `creating` (suspended inside
`await this.createBrowser()`, i.e. inside the puppeteer launch / page setup
awaits, before the final `this.pool.push(browser)`), `created b` (the
`createBrowser` body has finished — `browser` is already pushed into
`this.pool` — but the continuation of `await this.createBrowser()` in
`acquire`, which performs `this.inUse.add(newBrowser)`, has not run yet),
`waiting` (inside the 100 ms `setInterval` poll loop), `holding b`
(`acquire` returned browser `b`). -/
inductive TPc where
  | idle : TPc
  | creating : TPc
  | created : Nat → TPc
  | waiting : TPc
  | holding : Nat → TPc
deriving DecidableEq

/-- State of the pool plus the program counters of the logical callers.
`pool` and `inUse` mirror the fields `private pool: Browser[]` and
`private inUse = new Set<Browser>()`; browsers are named by creation index. -/
structure PoolSt where
  pool : List Nat
  inUse : List Nat
  nextId : Nat
  threads : List TPc
deriving DecidableEq

/-- Scheduler events: each runs one atomic (await-free) segment of
`acquire`/`release` on behalf of thread `t`. -/
inductive PoolEv where
  | callAcquire : Nat → PoolEv
  | finishCreate : Nat → PoolEv
  | resumeAcquire : Nat → PoolEv
  | pollTick : Nat → PoolEv
  | callRelease : Nat → PoolEv
deriving DecidableEq

/-- `Set.add`: a JS `Set` ignores an element that is already present. -/
def addSet (l : List Nat) (b : Nat) : List Nat :=
  if l.contains b then l else l ++ [b]

/-- `this.pool.find(b => !this.inUse.has(b))` from `acquire` (line 378)
and from the poll callback (line 395). -/
def findFree (pool inUse : List Nat) : Option Nat :=
  pool.find? (fun b => !inUse.contains b)

/-- Update thread `t`'s program counter. -/
def setThread (ths : List TPc) (t : Nat) (pc : TPc) : List TPc :=
  ths.set t pc

/-- One atomic segment of the pool code (`connection-pool.ts`):

* `callAcquire t` — the synchronous prefix of `acquire()` (lines 376-392):
  take a free pooled browser if there is one; otherwise, if
  `this.pool.length < this.maxSize`, start `createBrowser()` (the caller
  suspends at the `await`); otherwise enter the 100 ms polling loop.
* `finishCreate t` — the final segment of `createBrowser()` (lines 370-373):
  `this.pool.push(browser); return browser`.
* `resumeAcquire t` — the continuation of `await this.createBrowser()`
  (lines 387-389): `this.inUse.add(newBrowser); return newBrowser`.
* `pollTick t` — one `setInterval` callback (lines 394-401).
* `callRelease t` — `release(browser)` line 406 (`this.inUse.delete`); the
  idle-timeout scheduling of lines 409-413 is modelled separately below.

An event whose thread is not at the right program counter is a no-op. -/
def poolStep (cfg : PoolCfg) (st : PoolSt) (e : PoolEv) : PoolSt :=
  match e with
  | .callAcquire t =>
    match st.threads.getD t .idle with
    | .idle =>
      match findFree st.pool st.inUse with
      | some b =>
        { st with inUse := addSet st.inUse b, threads := setThread st.threads t (.holding b) }
      | none =>
        if st.pool.length < cfg.maxSize then
          { st with threads := setThread st.threads t .creating }
        else
          { st with threads := setThread st.threads t .waiting }
    | _ => st
  | .finishCreate t =>
    match st.threads.getD t .idle with
    | .creating =>
      { st with pool := st.pool ++ [st.nextId], nextId := st.nextId + 1,
                threads := setThread st.threads t (.created st.nextId) }
    | _ => st
  | .resumeAcquire t =>
    match st.threads.getD t .idle with
    | .created b =>
      { st with inUse := addSet st.inUse b, threads := setThread st.threads t (.holding b) }
    | _ => st
  | .pollTick t =>
    match st.threads.getD t .idle with
    | .waiting =>
      match findFree st.pool st.inUse with
      | some b =>
        { st with inUse := addSet st.inUse b, threads := setThread st.threads t (.holding b) }
      | none => st
    | _ => st
  | .callRelease t =>
    match st.threads.getD t .idle with
    | .holding b =>
      { st with inUse := st.inUse.filter (fun x => x != b), threads := setThread st.threads t .idle }
    | _ => st

/-- Run a trace of scheduler events. -/
def runPool (cfg : PoolCfg) (st : PoolSt) (evs : List PoolEv) : PoolSt :=
  evs.foldl (poolStep cfg) st

/-- Initial pool state with `n` idle callers (fresh `BrowserPool`). -/
def initPool (n : Nat) : PoolSt :=
  { pool := [], inUse := [], nextId := 0, threads := List.replicate n .idle }

/-- Trace refuting the `maxSize` bound with `maxSize = 1`: two callers both
run the synchronous prefix of `acquire()` (each observes `pool.length = 0 <
maxSize`), then both creations complete. -/
def overCapTrace : List PoolEv :=
  [.callAcquire 0, .callAcquire 1, .finishCreate 0, .resumeAcquire 0,
   .finishCreate 1, .resumeAcquire 1]

/-- Trace refuting exclusivity with `maxSize = 2`: caller 0 starts a creation;
the creation finishes (the browser is pushed into `this.pool`); before
caller 0's continuation marks it in-use, caller 1's `acquire()` fast path
finds it free and takes it; then caller 0's continuation also returns it. -/
def doubleHandTrace : List PoolEv :=
  [.callAcquire 0, .finishCreate 0, .callAcquire 1, .resumeAcquire 0]

/-! ## `BrowserPool.initialize()` (lines 44-64)

`initialize` launches `minSize` concurrent `createBrowser()` calls and awaits
`Promise.all` over them.  Each `createBrowser()` pushes its browser into
`this.pool` as its own last step, so a creation that succeeds registers its
browser regardless of whether a sibling creation fails.  `Promise.all`
rejects — and hence `initialize` rejects — iff some creation fails. -/

/-- Browsers pushed into `this.pool` by the `minSize` creations, given the
success/failure outcome of each creation (in completion order); `n` is the
next fresh browser id. -/
def initPushes : List Bool → Nat → List Nat
  | [], _ => []
  | ok :: rest, n => if ok then n :: initPushes rest (n + 1) else initPushes rest n

/-- `initialize()` given the outcomes of the `minSize` creations: first
component — whether `initialize` resolves (all creations succeeded); second
component — the contents of `this.pool` afterwards. -/
def runInit (outcomes : List Bool) : Bool × List Nat :=
  (outcomes.all (fun k => k), initPushes outcomes 0)

/-! ## Idle reclamation (`release` lines 405-414, `closeBrowserIfIdle` 416-427)

A timed model of `release`/`setTimeout`/`closeBrowserIfIdle` and of re-borrow.
Time is in milliseconds.  `advance d` lets `d` ms pass and then runs every
`setTimeout` callback that has come due (JS timers scheduled by this code have
monotone deadlines, so list order is firing order). -/

structure IdleCfg where
  minSize : Nat
  idleTimeout : Nat
deriving DecidableEq

/-- `pool`/`inUse` as in the source; `timers` are the pending
`closeBrowserIfIdle` timeouts as (browser, absolute fire time); `closed`
records browsers that were closed by an idle check. -/
structure IdleSt where
  pool : List Nat
  inUse : List Nat
  timers : List (Nat × Nat)
  closed : List Nat
  now : Nat
deriving DecidableEq

inductive IdleEv where
  | advance : Nat → IdleEv
  | release : Nat → IdleEv
  | borrow : Nat → IdleEv
deriving DecidableEq

/-- One `closeBrowserIfIdle(browser)` callback (lines 416-427): the timer is
consumed; then "double check it's still not in use" — only if the browser is
not in `this.inUse` is it closed and filtered out of `this.pool`. -/
def fireTimer (st : IdleSt) (bt : Nat × Nat) : IdleSt :=
  if st.inUse.contains bt.1 then
    { st with timers := st.timers.erase bt }
  else
    { st with timers := st.timers.erase bt,
              pool := st.pool.filter (fun x => x != bt.1),
              closed := st.closed ++ [bt.1] }

/-- Run every due timer callback (fuel-bounded; each step consumes one due
timer, so `st.timers.length` fuel suffices). -/
def fireDueAux : Nat → IdleSt → IdleSt
  | 0, st => st
  | fuel + 1, st =>
    match st.timers.find? (fun bt => bt.2 ≤ st.now) with
    | none => st
    | some bt => fireDueAux fuel (fireTimer st bt)

/-- Timed pool events:

* `advance d` — `d` ms pass; every `setTimeout` callback now due runs.
* `release b` — `release(browser)` (lines 405-414): `this.inUse.delete(b)`;
  if `this.pool.length > this.minSize` (and `b` is, trivially after the
  delete, not in `this.inUse`) schedule `closeBrowserIfIdle(b)` after
  `idleTimeout` ms.
* `borrow b` — an `acquire()` whose fast path returns the free pooled
  browser `b` (`this.inUse.add(b)`). -/
def stepIdle (cfg : IdleCfg) (st : IdleSt) : IdleEv → IdleSt
  | .advance d =>
    fireDueAux st.timers.length { st with now := st.now + d }
  | .release b =>
    if cfg.minSize < st.pool.length && !(st.inUse.filter (fun x => x != b)).contains b then
      { st with inUse := st.inUse.filter (fun x => x != b),
                timers := st.timers ++ [(b, st.now + cfg.idleTimeout)] }
    else
      { st with inUse := st.inUse.filter (fun x => x != b) }
  | .borrow b =>
    if st.pool.contains b && !st.inUse.contains b then
      { st with inUse := st.inUse ++ [b] }
    else st

def runIdle (cfg : IdleCfg) : IdleSt → List IdleEv → IdleSt
  | st, [] => st
  | st, e :: evs => runIdle cfg (stepIdle cfg st e) evs

/-- No event of the trace is an `acquire` returning browser `b`. -/
def noBorrowOf (b : Nat) (evs : List IdleEv) : Bool :=
  evs.all fun e =>
    match e with
    | .borrow b2 => b2 != b
    | _ => true

/-- Obligation tracked while a `closeBrowserIfIdle(b)` timeout scheduled for
time `ft` is outstanding: either the idle check already closed `b` (and
removed it from the pool), or the timer is still pending, `b` is free, and
its deadline has not passed. -/
def idleObligation (b ft : Nat) (st : IdleSt) : Prop :=
  (b ∈ st.closed ∧ b ∉ st.pool) ∨ ((b, ft) ∈ st.timers ∧ b ∉ st.inUse ∧ st.now < ft)

/-- Configuration for the concrete idle-reclaim counterexample:
`minSize = 1`, `idleTimeout = 10`. -/
def idleCfgC : IdleCfg := { minSize := 1, idleTimeout := 10 }

/-- Two pooled browsers, both borrowed, at time 0. -/
def idleStC : IdleSt :=
  { pool := [0, 1], inUse := [0, 1], timers := [], closed := [], now := 0 }

/-- Browser 1: released at t=0 (timer due t=10), re-borrowed at t=1,
released again at t=2 (second timer due t=12); the first timer fires at
t=10. -/
def idleTraceC : List IdleEv :=
  [.release 1, .advance 1, .borrow 1, .advance 1, .release 1, .advance 8]

/-- The prefix of `idleTraceC` up to and including the re-borrow. -/
def idleTraceCpre : List IdleEv := [.release 1, .advance 1, .borrow 1]

/-! ## `ExtractionService.extract` retry loop (`extraction.ts` lines 242-371)

The loop body (borrow a browser, navigate, extract) is abstracted as a
function `attempt : Nat → Except String Nat` giving the outcome of the `i`-th
attempt (the payload of a successful `ExtractionResult` is opaque, modelled as
`Nat`; a failure is its error message). -/

/-- `botDetectionPatterns` (extraction.ts lines 320-333). -/
def botDetectionPatterns : List String :=
  ["ERR_TOO_MANY_REDIRECTS", "status code 403", "status code 429", "captcha",
   "Access Denied", "blocked", "security check", "challenge", "suspicious",
   "automated", "bot", "cloudflare"]

/-- ASCII lower-casing of one character (JS `toLowerCase()` on the ASCII
strings involved here). -/
def lowerChar (c : Char) : Char :=
  if 65 ≤ c.toNat ∧ c.toNat ≤ 90 then Char.ofNat (c.toNat + 32) else c

/-- `pat` occurs at the start of `hay` (character lists). -/
def leadsWith : List Char → List Char → Bool
  | [], _ => true
  | _ :: _, [] => false
  | p :: ps, h :: hs => p == h && leadsWith ps hs

/-- JavaScript `hay.includes(pat)` on character lists. -/
def strContains : List Char → List Char → Bool
  | hay, pat =>
    match hay with
    | [] => pat.isEmpty
    | _ :: t => leadsWith pat hay || strContains t pat

/-- `isBotDetection` (lines 335-337):
`errorMessage.toLowerCase().includes(pattern.toLowerCase())` for some
pattern. -/
def isBotDetection (msg : String) : Bool :=
  botDetectionPatterns.any fun p => strContains (msg.data.map lowerChar) (p.data.map lowerChar)

/-- The `while (retryCount < maxRetries)` loop of `extract` with the loop
body's outcome given by `attempt`.  Structural recursion on
`rem = maxRetries - retryCount` (the loop guard `retryCount < maxRetries`
holds iff `rem > 0`, and `retryCount` increases by exactly one per
iteration); `rem = 0` is the fall-through out of the loop, line 370:
`throw new ExtractionError('Maximum retry attempts exceeded')`.  On a failed
attempt (lines 316-352): if the message matches a bot-detection pattern and
`retryCount < maxRetries - 1`, increment `retryCount` and `continue`;
a bot-detection failure with no retry budget left throws
`'Bot detection triggered - please try again later'`; any other failure is
rethrown as `ExtractionError(error.message)` at once. -/
def extractAttempts (maxRetries : Nat) (attempt : Nat → Except String Nat) :
    Nat → Nat → Except String Nat
  | _, 0 => Except.error ("Maximum retry attempts exceeded")
  | retryCount, rem + 1 =>
    match attempt retryCount with
    | Except.ok r => Except.ok r
    | Except.error msg =>
      if isBotDetection msg then
        if retryCount < maxRetries - 1 then
          extractAttempts maxRetries attempt (retryCount + 1) rem
        else Except.error ("Bot detection triggered - please try again later")
      else Except.error msg

/-- The whole retry loop: `retryCount = 0`, `maxRetries = 3` (line 244). -/
def extractRetry (attempt : Nat → Except String Nat) : Except String Nat :=
  extractAttempts 3 attempt 0 3

/-- An action that fails with error message `msg` on its first `r` attempts
and then succeeds. -/
def failNTimes (r : Nat) (msg : String) : Nat → Except String Nat :=
  fun i => if i < r then Except.error msg else Except.ok 0

/-! ## `RateLimiter` (`rate-limiter.ts`)

Tokens and timestamps are exact rationals (ms); the floating-point rounding
of the source is irrelevant at the comparisons the claims exercise.  The
JavaScript arithmetic on `number`s is rendered by the executable rational
operations below (`Mathlib`'s `+`/`*`/`/` on `ℚ` are `@[irreducible]`, so
kernel-evaluable clones are defined via `mkRat`/`Rat.divInt` and proved equal
to the standard operations). -/

/-- Executable rational addition; equals `a + b` (`qAdd_eq`). -/
def qAdd (a b : ℚ) : ℚ := mkRat (a.num * b.den + b.num * a.den) (a.den * b.den)

/-- Executable rational subtraction; equals `a - b` (`qSub_eq`). -/
def qSub (a b : ℚ) : ℚ := mkRat (a.num * b.den - b.num * a.den) (a.den * b.den)

/-- Executable rational multiplication; equals `a * b` (`qMul_eq`). -/
def qMul (a b : ℚ) : ℚ := mkRat (a.num * b.num) (a.den * b.den)

/-- Executable rational inverse; equals `a⁻¹` (`qInv_eq`). -/
def qInv (a : ℚ) : ℚ := Rat.divInt a.den a.num

/-- Executable rational division; equals `a / b` (`qDiv_eq`). -/
def qDiv (a b : ℚ) : ℚ := qMul a (qInv b)

/-- Executable `Math.min` on rationals; equals `min a b` (`qMin_eq`). -/
def qMin (a b : ℚ) : ℚ := if a ≤ b then a else b

/-- A `TokenBucket` (lines 3-6). -/
structure TokenBucket where
  tokens : ℚ
  lastRefill : ℚ
deriving DecidableEq

/-- Constructor parameters (lines 14-26): `maxRequests`, `windowMs`, and the
`keyPrefix` (field name in the source: `keyPrefix`). -/
structure RLCfg where
  maxRequests : ℚ
  windowMs : ℚ
  pfx : String
deriving DecidableEq

/-- `this.maxTokens = maxRequests` (line 19). -/
def RLCfg.maxTokens (c : RLCfg) : ℚ := c.maxRequests

/-- `this.refillRate = maxRequests / (windowMs / 1000)` (line 20). -/
def RLCfg.refillRate (c : RLCfg) : ℚ := qDiv c.maxRequests (qDiv c.windowMs 1000)

/-- Association-list rendering of a JS `Map`. -/
def mapGet {β : Type} : List (String × β) → String → Option β
  | [], _ => none
  | (k2, v) :: t, k => if k2 = k then some v else mapGet t k

/-- `Map.set`: overwrite in place, or append a fresh binding. -/
def mapSet {β : Type} : List (String × β) → String → β → List (String × β)
  | [], k, v => [(k, v)]
  | (k2, v2) :: t, k, v => if k2 = k then (k, v) :: t else (k2, v2) :: mapSet t k v

/-- `this.buckets : Map<string, TokenBucket>` (line 9). -/
abbrev RLState : Type := List (String × TokenBucket)

/-- `RateLimiter.acquire(key)` (lines 28-60): derive
`bucketKey = keyPrefix ? keyPrefix + ':' + key : key`; get or lazily create
the bucket (new buckets start full at `maxTokens`); refill
`timePassed * (refillRate / 1000)` tokens capped at `maxTokens`; set
`lastRefill = now`; consume one token and admit iff `tokens >= 1`. -/
def rlAcquire (cfg : RLCfg) (st : RLState) (key : String) (now : ℚ) : Bool × RLState :=
  let bucketKey := if cfg.pfx = "" then key else cfg.pfx ++ ":" ++ key
  let bucket := (mapGet st bucketKey).getD { tokens := cfg.maxTokens, lastRefill := now }
  let timePassed := qSub now bucket.lastRefill
  let tokensToAdd := qMul timePassed (qDiv cfg.refillRate 1000)
  let tokens := qMin cfg.maxTokens (qAdd bucket.tokens tokensToAdd)
  if 1 ≤ tokens then
    (true, mapSet st bucketKey { tokens := qSub tokens 1, lastRefill := now })
  else
    (false, mapSet st bucketKey { tokens := tokens, lastRefill := now })

/-- `RateLimiter.getRemainingTokens(key)` (lines 70-73): look `key` up in the
bucket map — without applying the key prefix — and return
`Math.floor(bucket.tokens)`, or `maxTokens` when no bucket is found. -/
def rlRemaining (cfg : RLCfg) (st : RLState) (key : String) : ℚ :=
  match mapGet st key with
  | some b => (⌊b.tokens⌋ : ℚ)
  | none => cfg.maxTokens

/-- Fold a sequence of `acquire(k)` calls (at the given timestamps) over the
bucket map. -/
def foldAcquire (cfg : RLCfg) (k : String) : List ℚ → RLState → RLState
  | [], st => st
  | t :: ts, st => foldAcquire cfg k ts (rlAcquire cfg st k t).2

/-- The scenario limiter of claim C6: `maxTokens = 2`, `windowMs = 1000`,
no key prefix. -/
def rlCfgC : RLCfg := { maxRequests := 2, windowMs := 1000, pfx := "" }

/-- First `acquire("k")` at t = 0 on a fresh limiter. -/
def rlC1 : Bool × RLState := rlAcquire rlCfgC [] ("k") 0

/-- Second back-to-back `acquire("k")`. -/
def rlC2 : Bool × RLState := rlAcquire rlCfgC rlC1.2 ("k") 0

/-- Third back-to-back `acquire("k")`. -/
def rlC3 : Bool × RLState := rlAcquire rlCfgC rlC2.2 ("k") 0

/-- Fourth `acquire("k")`, 600 ms later. -/
def rlC4 : Bool × RLState := rlAcquire rlCfgC rlC3.2 ("k") 600

/-- The prefixed singleton configuration used by the C10 witness
(`searchRateLimiter`: 60 requests / 60000 ms, prefix `"search"`). -/
def rlCfgSearch : RLCfg := { maxRequests := 60, windowMs := 60000, pfx := "search" }

/-! ## `CacheManager` (`cache-manager.ts`) over `node-cache`

`node-cache` is a third-party dependency whose code is not in the
repository.  Its `get`/`set` semantics are modelled from the spec:
an entry carries an absolute expiry instant `insertion time + ttl`;
`get` treats an expired-but-not-yet-swept entry as absent; `set` of a new key
fails once `maxKeys` entries are resident.  Timestamps are rational ms and
TTLs rational seconds, as in the source. -/

/-- A cached entry: opaque value and absolute expiry (ms). -/
structure NCEntry (V : Type) where
  value : V
  expiry : ℚ
deriving DecidableEq

/-- Modelled from the spec: `node-cache` `get(key)` — return the value if the
key is present and not expired, otherwise report absent ("Expired-but-not-
yet-swept entries must be treated as absent, never returned stale"). -/
def ncGet {V : Type} (st : List (String × NCEntry V)) (k : String) (now : ℚ) : Option V :=
  match mapGet st k with
  | some e => if e.expiry < now then none else some e.value
  | none => none

/-- Modelled from the spec: `node-cache` `set(key, value, ttlSec)` with a
`maxKeys` capacity ceiling — inserting a new key when `maxKeys` entries are
resident fails (returns `false`), otherwise the entry is stored with expiry
`now + ttlSec * 1000`. -/
def ncSet {V : Type} (maxKeys : Nat) (st : List (String × NCEntry V)) (k : String)
    (v : V) (ttlSec : ℚ) (now : ℚ) : Bool × List (String × NCEntry V) :=
  if (mapGet st k).isNone ∧ maxKeys ≤ st.length then
    (false, st)
  else
    (true, mapSet st k { value := v, expiry := qAdd now (qMul ttlSec 1000) })

/-- `CacheManager` configuration (constructor, lines 6-11 of the compiled
copy): `ttl` (seconds, default 3600), `checkPeriod`, `maxKeys`. -/
structure CMCfg where
  ttl : ℚ
  checkPeriod : ℚ
  maxKeys : Nat
deriving DecidableEq

/-- The TTL actually passed to `node-cache` by `CacheManager.set`:
`ttl || this.config.ttl` — JavaScript `||`, under which an explicit `0`
(falsy) falls back to the configured default exactly like an omitted
argument. -/
def cmTtl (cfg : CMCfg) (ttl : Option ℚ) : ℚ :=
  match ttl with
  | some t => if t = 0 then cfg.ttl else t
  | none => cfg.ttl

/-- `CacheManager.get(key)` (line 36 / 124). -/
def cmGet {V : Type} (st : List (String × NCEntry V)) (k : String) (now : ℚ) : Option V :=
  ncGet st k now

/-- `CacheManager.set(key, value, ttl)` (line 41 / 130):
`this.cache.set(key, value, ttl || this.config.ttl)`. -/
def cmSet {V : Type} (cfg : CMCfg) (st : List (String × NCEntry V)) (k : String)
    (v : V) (ttl : Option ℚ) (now : ℚ) : Bool × List (String × NCEntry V) :=
  ncSet cfg.maxKeys st k v (cmTtl cfg ttl) now

/-! ## Orchestration (`search.ts` lines 42-68, `extraction.ts` lines 228-251)

The process-wide mutable state touched by the two operations: the two cache
singletons, the two rate-limiter singletons, and the browser pool.  Request
parameters are opaque (`Nat`), as are cached payloads; the expensive tail of
each operation (Google API call / browser retry loop) is an arbitrary state
transformer. -/

structure Sys where
  scache : List (String × NCEntry Nat)
  ecache : List (String × NCEntry Nat)
  limS : RLState
  limE : RLState
  pool : PoolSt
deriving DecidableEq

/-- `SearchService.search(params)` (lines 42-68): `validateParams`, then the
cache lookup (key `JSON.stringify(params)`, abstracted as `ckey`); on a hit
return the cached results at once; on a miss consult
`searchRateLimiter.acquire(params.query)` (key abstracted as `rkey`) and
throw a rate-limit `SearchError` on rejection; otherwise run the Google call
(+ `searchCache.set`), abstracted as `action`. -/
def searchOp (validate : Nat → Bool) (ckey rkey : Nat → String) (cfgR : RLCfg)
    (action : Sys → Except String Nat × Sys) (st : Sys) (p : Nat) (now : ℚ) :
    Except String Nat × Sys :=
  if validate p then
    match ncGet st.scache (ckey p) now with
    | some v => (Except.ok v, st)
    | none =>
      let res := rlAcquire cfgR st.limS (rkey p) now
      if res.1 then action { st with limS := res.2 }
      else (Except.error ("Search rate limit exceeded"), { st with limS := res.2 })
  else (Except.error ("invalid search parameters"), st)

/-- `ExtractionService.extract(params)` (lines 228-251): cache lookup (key
`JSON.stringify(params)`); on a hit return the cached result at once; on a
miss consult `extractionRateLimiter.acquire(params.url)` and throw
`RateLimitError` on rejection; otherwise enter the browser retry loop,
abstracted as `rest`. -/
def extractOp (ckey rkey : Nat → String) (cfgR : RLCfg)
    (rest : Sys → Except String Nat × Sys) (st : Sys) (p : Nat) (now : ℚ) :
    Except String Nat × Sys :=
  match ncGet st.ecache (ckey p) now with
  | some v => (Except.ok v, st)
  | none =>
    let res := rlAcquire cfgR st.limE (rkey p) now
    if res.1 then rest { st with limE := res.2 }
    else (Except.error ("Rate limit exceeded"), { st with limE := res.2 })

/-- `CacheManager` configuration of the `searchCache` singleton
(`ttl = 3600 s`, `maxKeys = 1000`), used by concrete witnesses. -/
def cmCfgW : CMCfg := { ttl := 3600, checkPeriod := 600, maxKeys := 1000 }

/-- Concrete system state for the cache-hit witnesses: one unexpired entry in
each cache, fresh limiters, empty pool. -/
def sysW : Sys :=
  { scache := [(("k"), { value := 7, expiry := 5 })],
    ecache := [(("e"), { value := 9, expiry := 5 })],
    limS := [], limE := [], pool := initPool 0 }

/-! # Theorems -/

/-! ## Bridge lemmas: the executable rational operations agree with `ℚ` -/

theorem qAdd_eq (a b : ℚ) : qAdd a b = a + b := (Rat.add_def' a b).symm

theorem qSub_eq (a b : ℚ) : qSub a b = a - b := (Rat.sub_def' a b).symm

theorem qMul_eq (a b : ℚ) : qMul a b = a * b := by
  rw [qMul, Rat.mkRat_eq_divInt, Int.natCast_mul, ← Rat.divInt_mul_divInt',
    Rat.num_divInt_den, Rat.num_divInt_den]

theorem qInv_eq (a : ℚ) : qInv a = a⁻¹ := by
  rw [qInv, ← Rat.inv_def]; rfl

theorem qDiv_eq (a b : ℚ) : qDiv a b = a / b := by
  rw [qDiv, qInv_eq, qMul_eq, division_def]

theorem qMin_eq (a b : ℚ) : qMin a b = min a b := (min_def a b).symm

/-! ## Association-list map lemmas -/

theorem mapGet_mapSet_eq {β : Type} (m : List (String × β)) (k : String) (v : β) :
    mapGet (mapSet m k v) k = some v := by
  induction m with
  | nil => simp [mapGet, mapSet]
  | cons h t ih =>
    by_cases hk : h.1 = k
    · simp [mapGet, mapSet, hk]
    · simp [mapGet, mapSet, hk, ih]

theorem mapGet_mapSet_ne {β : Type} (m : List (String × β)) (k k2 : String) (v : β)
    (h : k2 ≠ k) : mapGet (mapSet m k2 v) k = mapGet m k := by
  induction m with
  | nil => simp [mapGet, mapSet, h]
  | cons hd t ih =>
    by_cases hk : hd.1 = k2
    · simp [mapGet, mapSet, hk, h]
    · by_cases hk2 : hd.1 = k
      · simp [mapGet, mapSet, hk, hk2, Ne.symm h]
      · simp [mapGet, mapSet, hk, hk2, ih]

/-! ## Claims C1 and C2: pool bound and exclusivity under interleaving -/

/-- Claim C1 (code bug, witnessing theorem): with `maxSize = 1`, the trace in
which two concurrent `acquire()` calls both observe `pool.length = 0 <
maxSize` before either suspended creation pushes its browser ends with two
browsers simultaneously in use — the number of in-use browsers exceeds
`maxSize`.  Each `acquire` caller holds its distinct newly created browser,
so `inUse` has two members although `maxSize = 1`. -/
theorem pool_overcap_at_trace :
    (runPool { maxSize := 1, minSize := 1 } (initPool 2) overCapTrace).inUse.length = 2
  ∧ (runPool { maxSize := 1, minSize := 1 } (initPool 2) overCapTrace).threads
      = [TPc.holding 0, TPc.holding 1]
  ∧ ({ maxSize := 1, minSize := 1 } : PoolCfg).maxSize = 1 := by
  decide

/-- Claim C2 (code bug, witnessing theorem): with `maxSize = 2`, the trace in
which caller 0's `createBrowser()` pushes the new browser into `this.pool`
and — at the `await` boundary before caller 0's continuation runs
`this.inUse.add` — caller 1's `acquire()` fast path takes that same browser,
ends with both callers holding browser 0, and no `release` event occurs in
the trace. -/
theorem pool_double_handout_at_trace :
    (runPool { maxSize := 2, minSize := 1 } (initPool 2) doubleHandTrace).threads
      = [TPc.holding 0, TPc.holding 0]
  ∧ doubleHandTrace.all
      (fun e => match e with | PoolEv.callRelease _ => false | _ => true) = true := by
  decide

/-! ## Claim C4: `initialize()` failure atomicity -/

/-- Claim C4 counterexample: with `minSize = 2`, if the first creation
succeeds and the second fails, `initialize()` rejects — but `this.pool` is
`[0]`, not empty: the pool silently retains the browser whose creation
succeeded, refuting the claimed atomicity. -/
theorem init_partial_pool_cex :
    (runInit [true, false]).1 = false
  ∧ (runInit [true, false]).2 = [0]
  ∧ (runInit [true, false]).2 ≠ [] := by
  decide

theorem initPushes_length (l : List Bool) (n : Nat) :
    (initPushes l n).length = (l.filter (fun k => k)).length := by
  induction l generalizing n with
  | nil => rfl
  | cons h t ih =>
    cases h <;> simp [initPushes, List.filter, ih]

/-- Claim C4 amended: `initialize()` resolves iff every one of the `minSize`
creations succeeds; when any creation fails it rejects, but the pool is not
rolled back — it retains exactly the browsers whose creation succeeded (one
pool entry per successful creation). -/
theorem init_rejects_but_retains (outcomes : List Bool) :
    (runInit outcomes).1 = outcomes.all (fun k => k)
  ∧ (runInit outcomes).2.length = (outcomes.filter (fun k => k)).length :=
  ⟨rfl, initPushes_length outcomes 0⟩

/-! ## Claim C6: token-bucket scenario `maxTokens = 2`, `windowMs = 1000` -/

set_option maxRecDepth 8000 in
/-- Claim C6: on a fresh key, three back-to-back `acquire("k")` calls return
`true, true, false` (the new bucket starts full at `maxTokens = 2` and each
admitted call subtracts exactly 1: the bucket holds 1, then 0, then 0
tokens); after 600 ms, a fourth call returns `true` — the refill is exactly
`600 ms * refillRate / 1000 = 6/5 = 1.2` tokens, capped at `maxTokens`, and
the admitted call leaves `6/5 - 1 = 1/5` tokens. -/
theorem rate_limiter_scenario :
    rlC1.1 = true
  ∧ mapGet rlC1.2 ("k") = some { tokens := 1, lastRefill := 0 }
  ∧ rlC2.1 = true
  ∧ mapGet rlC2.2 ("k") = some { tokens := 0, lastRefill := 0 }
  ∧ rlC3.1 = false
  ∧ mapGet rlC3.2 ("k") = some { tokens := 0, lastRefill := 0 }
  ∧ qMin rlCfgC.maxTokens (qAdd 0 (qMul (qSub 600 0) (qDiv rlCfgC.refillRate 1000))) = 6 / 5
  ∧ rlC4.1 = true
  ∧ mapGet rlC4.2 ("k") = some { tokens := mkRat 1 5, lastRefill := 600 }
  ∧ (mkRat 1 5 : ℚ) = 6 / 5 - 1 := by
  have h65 : (6 / 5 : ℚ) = mkRat 6 5 := by
    rw [Rat.mkRat_eq_divInt]; norm_num [Rat.divInt_eq_div]
  have h15 : (mkRat 1 5 : ℚ) = 6 / 5 - 1 := by
    rw [Rat.mkRat_eq_divInt]; norm_num [Rat.divInt_eq_div]
  refine ⟨by decide, by decide, by decide, by decide, by decide, by decide, ?_,
    by decide, by decide, h15⟩
  rw [h65]; decide

/-! ## Claim C9: `set(k, v, 0)` stores with the default TTL -/

/-- Claim C9: because `CacheManager.set` passes `ttl || this.config.ttl` to
the underlying cache, an explicit `ttl` of `0` is indistinguishable from an
omitted `ttl`: the call with `some 0` equals the call with `none`, and the
TTL actually stored is the configured default `config.ttl`, not zero. -/
theorem set_zero_ttl_default (cfg : CMCfg) (st : List (String × NCEntry Nat))
    (k : String) (v : Nat) (now : ℚ) :
    cmSet cfg st k v (some 0) now = cmSet cfg st k v none now
  ∧ cmTtl cfg (some 0) = cfg.ttl
  ∧ cmTtl cfg none = cfg.ttl := by
  refine ⟨?_, by simp [cmTtl], rfl⟩
  simp [cmSet, cmTtl]

/-! ## Claim C10: `getRemainingTokens` never sees a prefixed bucket -/

theorem rlAcquire_preserves_absent (cfg : RLCfg) (st : RLState) (k : String) (t : ℚ)
    (hpfx : cfg.pfx ≠ "") (habs : mapGet st k = none) :
    mapGet (rlAcquire cfg st k t).2 k = none := by
  have hne : cfg.pfx ++ ":" ++ k ≠ k := by
    intro h
    have hlen := congrArg String.length h
    simp only [String.length_append] at hlen
    have : (":" : String).length = 1 := rfl
    omega
  unfold rlAcquire
  simp only [if_neg hpfx]
  split
  · rw [mapGet_mapSet_ne _ _ _ _ hne, habs]
  · rw [mapGet_mapSet_ne _ _ _ _ hne, habs]

theorem foldAcquire_preserves_absent (cfg : RLCfg) (k : String) (ts : List ℚ)
    (st : RLState) (hpfx : cfg.pfx ≠ "") (habs : mapGet st k = none) :
    mapGet (foldAcquire cfg k ts st) k = none := by
  induction ts generalizing st with
  | nil => exact habs
  | cons t ts ih =>
    exact ih _ (rlAcquire_preserves_absent cfg st k t hpfx habs)

/-- Claim C10: for a `RateLimiter` constructed with a non-empty `keyPrefix`
(as both exported singletons are), after any sequence of `acquire(k)` calls
starting from an empty bucket map, `getRemainingTokens(k)` still returns
`maxTokens`: `acquire` stores the bucket under `keyPrefix + ":" + k`, while
`getRemainingTokens` looks up the bare `k`, which is never a key of the map. -/
theorem remaining_tokens_ignores_acquires (cfg : RLCfg) (k : String) (ts : List ℚ)
    (hpfx : cfg.pfx ≠ "") :
    rlRemaining cfg (foldAcquire cfg k ts []) k = cfg.maxTokens := by
  have habs : mapGet (foldAcquire cfg k ts []) k = none :=
    foldAcquire_preserves_absent cfg k ts [] hpfx rfl
  unfold rlRemaining
  rw [habs]

/-- Witness for claim C10 at the `searchRateLimiter` configuration
(prefix `"search"`, `maxTokens = 60`) after three `acquire("q")` calls. -/
theorem remaining_tokens_ignores_acquires_witness :
    rlCfgSearch.pfx ≠ ""
  ∧ rlRemaining rlCfgSearch (foldAcquire rlCfgSearch ("q") [0, 0, 0] []) ("q")
      = rlCfgSearch.maxTokens :=
  ⟨by decide, remaining_tokens_ignores_acquires rlCfgSearch ("q") [0, 0, 0] (by decide)⟩

/-! ## Claim C3: retry/terminal-error behaviour of the extract loop -/

theorem extractAttempts_step_ok (maxR : Nat) (f : Nat → Except String Nat)
    (rc rem v : Nat) (hf : f rc = Except.ok v) :
    extractAttempts maxR f rc (rem + 1) = Except.ok v := by
  simp only [extractAttempts, hf]

theorem extractAttempts_step_bot (maxR : Nat) (f : Nat → Except String Nat)
    (rc rem : Nat) (m : String) (hf : f rc = Except.error m)
    (hb : isBotDetection m = true) :
    extractAttempts maxR f rc (rem + 1) =
      if rc < maxR - 1 then extractAttempts maxR f (rc + 1) rem
      else Except.error ("Bot detection triggered - please try again later") := by
  simp only [extractAttempts, hf, hb, if_true]

theorem extractAttempts_step_other (maxR : Nat) (f : Nat → Except String Nat)
    (rc rem : Nat) (m : String) (hf : f rc = Except.error m)
    (hb : isBotDetection m = false) :
    extractAttempts maxR f rc (rem + 1) = Except.error m := by
  simp only [extractAttempts, hf, hb, Bool.false_eq_true, if_false]

/-- Claim C3 counterexample: with an action that fails with the transient
message `"captcha"` on every one of the three attempts (`r = 3 = maxRetries`),
the loop terminates with `ExtractionError('Bot detection triggered - please
try again later')` — not with the claimed `'Maximum retry attempts exceeded'`
error, whose `throw` after the loop is unreachable (the loop is only left by
`return` or `throw`). -/
theorem extract_exhaust_error_cex :
    extractRetry (failNTimes 3 ("captcha")) =
      Except.error ("Bot detection triggered - please try again later")
  ∧ ("Bot detection triggered - please try again later" : String) ≠
      ("Maximum retry attempts exceeded") := by
  exact ⟨rfl, by decide⟩

/-- Claim C3 amended: for the simulated action failing with a transient
(bot-detection) message exactly `r` times and then succeeding, the
orchestrated loop (maxRetries = 3) succeeds iff `r < 3`; for `r ≥ 3` it
raises the terminal bot-detection error `'Bot detection triggered - please
try again later'` (the `'Maximum retry attempts exceeded'` throw after the
loop is dead code); a non-transient first failure propagates at once, with
its own message and no second attempt consulted (the result is determined by
the action's outcome at attempt 0 alone). -/
theorem extract_retry_amended (r : Nat) (m : String) (hbot : isBotDetection m = true) :
    (r < 3 → extractRetry (failNTimes r m) = Except.ok 0)
  ∧ (3 ≤ r → extractRetry (failNTimes r m) =
      Except.error ("Bot detection triggered - please try again later"))
  ∧ (∀ (f : Nat → Except String Nat) (m2 : String), isBotDetection m2 = false →
      f 0 = Except.error m2 → extractRetry f = Except.error m2) := by
  refine ⟨?_, ?_, ?_⟩
  · intro hr
    interval_cases r
    · rfl
    · rw [extractRetry, show (3 : Nat) = 2 + 1 from rfl,
        extractAttempts_step_bot 3 _ 0 2 m (by simp [failNTimes]) hbot]
      rw [if_pos (by omega), extractAttempts_step_ok 3 _ 1 1 0 (by simp [failNTimes])]
    · rw [extractRetry, show (3 : Nat) = 2 + 1 from rfl,
        extractAttempts_step_bot 3 _ 0 2 m (by simp [failNTimes]) hbot]
      rw [if_pos (by omega),
        extractAttempts_step_bot 3 _ 1 1 m (by simp [failNTimes]) hbot]
      rw [if_pos (by omega), extractAttempts_step_ok 3 _ 2 0 0 (by simp [failNTimes])]
  · intro hr
    have h0 : failNTimes r m 0 = Except.error m := by
      simp only [failNTimes, if_pos (show 0 < r by omega)]
    have h1 : failNTimes r m 1 = Except.error m := by
      simp only [failNTimes, if_pos (show 1 < r by omega)]
    have h2 : failNTimes r m 2 = Except.error m := by
      simp only [failNTimes, if_pos (show 2 < r by omega)]
    rw [extractRetry, show (3 : Nat) = 2 + 1 from rfl,
      extractAttempts_step_bot 3 _ 0 2 m h0 hbot]
    rw [if_pos (by omega), extractAttempts_step_bot 3 _ 1 1 m h1 hbot]
    rw [if_pos (by omega), extractAttempts_step_bot 3 _ 2 0 m h2 hbot]
    rw [if_neg (by omega)]
  · intro f m2 hb2 hf0
    rw [extractRetry, show (3 : Nat) = 2 + 1 from rfl,
      extractAttempts_step_other 3 f 0 2 m2 hf0 hb2]

/-- Witness for the amended claim C3 at `r = 5`, message `"captcha"`. -/
theorem extract_retry_amended_witness :
    isBotDetection ("captcha") = true
  ∧ extractRetry (failNTimes 5 ("captcha")) =
      Except.error ("Bot detection triggered - please try again later") :=
  ⟨by decide, (extract_retry_amended 5 ("captcha") (by decide)).2.1 (by omega)⟩

/-! ## Claim C7: a cache hit charges no rate-limit token and borrows no browser -/

/-- Claim C7: if the cache key of a (valid) search request, respectively of
an extract request, is present and unexpired in the corresponding cache, the
operation returns the cached value and the entire system state — in
particular the rate-limiter bucket maps `limS`/`limE` (no token consumed, no
bucket created) and the browser pool `pool` (nothing borrowed) — is returned
unchanged, for every continuation `action`/`rest`. -/
theorem cache_hit_frame (validate : Nat → Bool) (ckey rkey ckey2 rkey2 : Nat → String)
    (cfgR cfgR2 : RLCfg) (action rest : Sys → Except String Nat × Sys)
    (st st2 : Sys) (p p2 : Nat) (now now2 : ℚ) (v v2 : Nat)
    (hval : validate p = true)
    (hhit : ncGet st.scache (ckey p) now = some v)
    (hhit2 : ncGet st2.ecache (ckey2 p2) now2 = some v2) :
    searchOp validate ckey rkey cfgR action st p now = (Except.ok v, st)
  ∧ extractOp ckey2 rkey2 cfgR2 rest st2 p2 now2 = (Except.ok v2, st2) := by
  constructor
  · rw [searchOp, if_pos hval, hhit]
  · rw [extractOp, hhit2]

/-- Witness for claim C7: concrete hits in both caches of `sysW`; both
operations return the cached payloads and leave `sysW` unchanged. -/
theorem cache_hit_frame_witness :
    searchOp (fun _ => true) (fun _ => ("k")) (fun _ => ("q")) rlCfgSearch
        (fun s => (Except.error (""), s)) sysW 0 0 = (Except.ok 7, sysW)
  ∧ extractOp (fun _ => ("e")) (fun _ => ("u")) rlCfgSearch
        (fun s => (Except.error (""), s)) sysW 0 0 = (Except.ok 9, sysW) :=
  cache_hit_frame (fun _ => true) (fun _ => ("k")) (fun _ => ("q")) (fun _ => ("e"))
    (fun _ => ("u")) rlCfgSearch rlCfgSearch (fun s => (Except.error (""), s))
    (fun s => (Except.error (""), s)) sysW sysW 0 0 0 0 7 9
    (by decide) (by decide) (by decide)

/-! ## Claim C8: cache round trip and expiry -/

/-- Claim C8: for any admitted `set(k, v, ttl)` with `ttl > 0` (time-stamped
`now`, TTL in seconds): an immediate `get(k)` (at the same instant) returns
`v`, and a `get(k)` at any instant strictly later than `now + ttl * 1000` ms
returns absent — the expired entry is never returned, swept or not
(`qAdd`/`qMul` are exact-rational addition/multiplication, `qAdd_eq`,
`qMul_eq`). -/
theorem cache_roundtrip_expiry (cfg : CMCfg) (st : List (String × NCEntry Nat))
    (k : String) (v : Nat) (ttl now now2 : ℚ) (hpos : 0 < ttl)
    (hadm : (cmSet cfg st k v (some ttl) now).1 = true)
    (hlate : qAdd now (qMul ttl 1000) < now2) :
    cmGet (cmSet cfg st k v (some ttl) now).2 k now = some v
  ∧ cmGet (cmSet cfg st k v (some ttl) now).2 k now2 = none := by
  have httl : cmTtl cfg (some ttl) = ttl := by
    simp only [cmTtl, if_neg hpos.ne']
  rw [cmSet, ncSet, httl] at hadm ⊢
  by_cases hcap : (mapGet st k).isNone ∧ cfg.maxKeys ≤ st.length
  · rw [if_pos hcap] at hadm
    simp at hadm
  · rw [if_neg hcap]
    have hexp : ¬ (qAdd now (qMul ttl 1000) < now) := by
      rw [qAdd_eq, qMul_eq]
      have hp : (0 : ℚ) < ttl * 1000 := by positivity
      linarith
    constructor
    · simp only [cmGet, ncGet, mapGet_mapSet_eq]
      rw [if_neg hexp]
    · simp only [cmGet, ncGet, mapGet_mapSet_eq]
      rw [if_pos hlate]

/-- Witness for claim C8 on the `searchCache` configuration:
`set("k", 42, 1 s)` at `t = 0`; `get` at `t = 0` hits, `get` at `t = 2000 ms`
reports absent. -/
theorem cache_roundtrip_expiry_witness :
    ((0 : ℚ) < 1)
  ∧ (cmSet cmCfgW [] ("k") 42 (some 1) 0).1 = true
  ∧ qAdd 0 (qMul 1 1000) < 2000
  ∧ cmGet (cmSet cmCfgW [] ("k") 42 (some 1) 0).2 ("k") 0 = some 42
  ∧ cmGet (cmSet cmCfgW [] ("k") 42 (some 1) 0).2 ("k") 2000 = none :=
  ⟨by decide, by decide, by decide,
   (cache_roundtrip_expiry cmCfgW [] ("k") 42 1 0 2000 (by decide) (by decide) (by decide)).1,
   (cache_roundtrip_expiry cmCfgW [] ("k") 42 1 0 2000 (by decide) (by decide) (by decide)).2⟩

/-! ## Claim C5: idle reclamation -/

theorem fireTimer_inUse (st : IdleSt) (bt : Nat × Nat) :
    (fireTimer st bt).inUse = st.inUse := by
  rw [fireTimer]; split <;> rfl

theorem fireTimer_now (st : IdleSt) (bt : Nat × Nat) :
    (fireTimer st bt).now = st.now := by
  rw [fireTimer]; split <;> rfl

theorem fireDueAux_closed_stable (fuel : Nat) (st : IdleSt) (b : Nat)
    (hc : b ∈ st.closed) (hp : b ∉ st.pool) :
    b ∈ (fireDueAux fuel st).closed ∧ b ∉ (fireDueAux fuel st).pool := by
  induction fuel generalizing st with
  | zero => exact ⟨hc, hp⟩
  | succ n ih =>
    simp only [fireDueAux]
    cases hfind : st.timers.find? (fun bt => bt.2 ≤ st.now) with
    | none => exact ⟨hc, hp⟩
    | some bt =>
      apply ih
      · rw [fireTimer]; split
        · exact hc
        · exact List.mem_append_left _ hc
      · rw [fireTimer]; split
        · exact hp
        · exact fun hm => hp (List.mem_of_mem_filter hm)

theorem fireDueAux_closes_due (fuel : Nat) (st : IdleSt) (b ft : Nat)
    (hmem : (b, ft) ∈ st.timers) (hniu : b ∉ st.inUse) (hdue : ft ≤ st.now)
    (hfuel : st.timers.length ≤ fuel) :
    b ∈ (fireDueAux fuel st).closed ∧ b ∉ (fireDueAux fuel st).pool := by
  induction fuel generalizing st with
  | zero =>
    rw [List.eq_nil_of_length_eq_zero (Nat.le_zero.mp hfuel)] at hmem
    cases hmem
  | succ n ih =>
    simp only [fireDueAux]
    cases hfind : st.timers.find? (fun bt => bt.2 ≤ st.now) with
    | none =>
      exfalso
      have hnone := List.find?_eq_none.mp hfind (b, ft) hmem
      simp only [decide_eq_true_eq] at hnone
      exact hnone hdue
    | some bt =>
      have hbtmem : bt ∈ st.timers := List.mem_of_find?_eq_some hfind
      have hlen : (st.timers.erase bt).length ≤ n := by
        rw [List.length_erase_of_mem hbtmem]
        omega
      dsimp only
      by_cases hb : st.inUse.contains bt.1 = true
      · have hne1 : bt.1 ≠ b := fun h => hniu (List.elem_iff.mp (h ▸ hb))
        have hne : (b, ft) ≠ bt := fun h => hne1 (by rw [← h])
        unfold fireTimer
        rw [if_pos hb]
        exact ih { st with timers := st.timers.erase bt }
          ((List.mem_erase_of_ne hne).mpr hmem) hniu hdue hlen
      · unfold fireTimer
        rw [if_neg hb]
        by_cases hbb : bt.1 = b
        · apply fireDueAux_closed_stable
          · exact List.mem_append_right _ (by rw [hbb]; exact List.mem_singleton.mpr rfl)
          · intro hm
            have := (List.mem_filter.mp hm).2
            rw [hbb] at this
            simp at this
        · have hne : (b, ft) ≠ bt := fun h => hbb (by rw [← h])
          apply ih
          · exact (List.mem_erase_of_ne hne).mpr hmem
          · exact hniu
          · exact hdue
          · exact hlen

theorem fireDueAux_pending (fuel : Nat) (st : IdleSt) (b ft : Nat)
    (hmem : (b, ft) ∈ st.timers) (hniu : b ∉ st.inUse) (hlt : st.now < ft) :
    (b, ft) ∈ (fireDueAux fuel st).timers ∧ b ∉ (fireDueAux fuel st).inUse
  ∧ (fireDueAux fuel st).now < ft := by
  induction fuel generalizing st with
  | zero => exact ⟨hmem, hniu, hlt⟩
  | succ n ih =>
    simp only [fireDueAux]
    cases hfind : st.timers.find? (fun bt => bt.2 ≤ st.now) with
    | none => exact ⟨hmem, hniu, hlt⟩
    | some bt =>
      have hdue : bt.2 ≤ st.now := by
        have := List.find?_some hfind
        simpa using this
      have hne : (b, ft) ≠ bt := by
        intro h
        rw [← h] at hdue
        omega
      have htimers : (fireTimer st bt).timers = st.timers.erase bt := by
        rw [fireTimer]; split <;> rfl
      apply ih
      · rw [htimers]
        exact (List.mem_erase_of_ne hne).mpr hmem
      · rw [fireTimer_inUse]; exact hniu
      · rw [fireTimer_now]; exact hlt

theorem stepIdle_obligation (cfg : IdleCfg) (st : IdleSt) (b ft : Nat) (e : IdleEv)
    (hob : idleObligation b ft st)
    (hnb : ∀ b2, e = IdleEv.borrow b2 → b2 ≠ b) :
    idleObligation b ft (stepIdle cfg st e) := by
  rw [idleObligation] at hob ⊢
  cases e with
  | advance d =>
    simp only [stepIdle]
    rcases hob with ⟨hc, hp⟩ | ⟨hmem, hniu, hlt⟩
    · exact Or.inl (fireDueAux_closed_stable _ _ b hc hp)
    · by_cases hdue : ft ≤ st.now + d
      · exact Or.inl (fireDueAux_closes_due _ _ b ft hmem hniu hdue (Nat.le_refl _))
      · exact Or.inr (fireDueAux_pending _ _ b ft hmem hniu (by show st.now + d < ft; omega))
  | release b2 =>
    simp only [stepIdle]
    split
    · rcases hob with ⟨hc, hp⟩ | ⟨hmem, hniu, hlt⟩
      · exact Or.inl ⟨hc, hp⟩
      · exact Or.inr ⟨List.mem_append_left _ hmem,
          fun hm => hniu (List.mem_of_mem_filter hm), hlt⟩
    · rcases hob with ⟨hc, hp⟩ | ⟨hmem, hniu, hlt⟩
      · exact Or.inl ⟨hc, hp⟩
      · exact Or.inr ⟨hmem, fun hm => hniu (List.mem_of_mem_filter hm), hlt⟩
  | borrow b2 =>
    have hne : b2 ≠ b := hnb b2 rfl
    simp only [stepIdle]
    split
    · rcases hob with ⟨hc, hp⟩ | ⟨hmem, hniu, hlt⟩
      · exact Or.inl ⟨hc, hp⟩
      · refine Or.inr ⟨hmem, ?_, hlt⟩
        intro hm
        rcases List.mem_append.mp hm with h | h
        · exact hniu h
        · exact hne (List.mem_singleton.mp h).symm
    · exact hob

theorem runIdle_obligation (cfg : IdleCfg) (b ft : Nat) (evs : List IdleEv)
    (st : IdleSt) (hob : idleObligation b ft st) (hnb : noBorrowOf b evs = true) :
    idleObligation b ft (runIdle cfg st evs) := by
  induction evs generalizing st with
  | nil => exact hob
  | cons e evs ih =>
    rw [noBorrowOf, List.all_cons, Bool.and_eq_true] at hnb
    refine ih _ (stepIdle_obligation cfg st b ft e hob ?_) hnb.2
    intro b2 he
    subst he
    simpa using hnb.1

theorem fireDueAux_inuse_no_close (fuel : Nat) (st : IdleSt) (b : Nat)
    (hiu : st.inUse.contains b = true) :
    (b ∈ (fireDueAux fuel st).closed ↔ b ∈ st.closed)
  ∧ (b ∈ st.pool → b ∈ (fireDueAux fuel st).pool) := by
  induction fuel generalizing st with
  | zero => exact ⟨Iff.rfl, fun h => h⟩
  | succ n ih =>
    simp only [fireDueAux]
    cases hfind : st.timers.find? (fun bt => bt.2 ≤ st.now) with
    | none => exact ⟨Iff.rfl, fun h => h⟩
    | some bt =>
      dsimp only
      by_cases hb : st.inUse.contains bt.1 = true
      · unfold fireTimer
        rw [if_pos hb]
        exact ih { st with timers := st.timers.erase bt } hiu
      · have hne : bt.1 ≠ b := fun h => hb (h ▸ hiu)
        unfold fireTimer
        rw [if_neg hb]
        have hrec := ih { st with
          timers := st.timers.erase bt
          pool := st.pool.filter (fun x => x != bt.1)
          closed := st.closed ++ [bt.1] } hiu
        constructor
        · rw [hrec.1]
          constructor
          · intro hm
            rcases List.mem_append.mp hm with h | h
            · exact h
            · exact absurd (List.mem_singleton.mp h).symm hne
          · exact fun h => List.mem_append_left _ h
        · intro hp
          apply hrec.2
          exact List.mem_filter.mpr ⟨hp, by simp [Ne.symm hne]⟩

/-- Claim C5 counterexample: with `minSize = 1`, `idleTimeout = 10`, browser 1
(of pool `[0, 1]`) is released at `t = 0` (so a `closeBrowserIfIdle` check is
scheduled for `t = 10`), RE-BORROWED at `t = 1` — before that check fires —
and released again at `t = 2`.  When the `t = 10` check fires, browser 1 is
free again, so the check closes it and removes it from the pool: a browser
re-borrowed before the deferred idle check fired was nevertheless closed by
that check, refuting "if it is re-borrowed before the deferred idle check
fires, that check never closes it". -/
theorem idle_reborrow_closed_cex :
    (runIdle idleCfgC idleStC idleTraceCpre).inUse.contains 1 = true
  ∧ (runIdle idleCfgC idleStC idleTraceCpre).now = 1
  ∧ (runIdle idleCfgC idleStC idleTraceCpre).timers = [(1, 10)]
  ∧ (runIdle idleCfgC idleStC idleTraceC).closed = [1]
  ∧ (runIdle idleCfgC idleStC idleTraceC).pool = [0]
  ∧ (runIdle idleCfgC idleStC idleTraceC).now = 10
  ∧ idleCfgC.minSize < idleStC.pool.length := by
  decide

/-- Claim C5 amended: a browser `b` released while `|pool| > minSize` gets a
deferred idle check `idleTimeout` later, and the check re-verifies free-state
at fire time: (a) if no `acquire` returns `b` before the deadline passes,
`b` is closed and removed from the pool; (b) a browser that is **in use**
when due checks run is never closed (nor removed from the pool) by them.
However — unlike the original claim — a browser re-borrowed and released
again before the check fires is free at fire time and can be closed by that
earlier check (`idle_reborrow_closed_cex`). -/
theorem idle_reclaim_amended (cfg : IdleCfg) (st st2 : IdleSt) (b : Nat)
    (evs : List IdleEv) (fuel : Nat)
    (hT : 0 < cfg.idleTimeout)
    (hmin : cfg.minSize < st.pool.length)
    (hnb : noBorrowOf b evs = true)
    (hfin : st.now + cfg.idleTimeout ≤
      (runIdle cfg (stepIdle cfg st (IdleEv.release b)) evs).now) :
    (b ∈ (runIdle cfg (stepIdle cfg st (IdleEv.release b)) evs).closed
      ∧ b ∉ (runIdle cfg (stepIdle cfg st (IdleEv.release b)) evs).pool)
  ∧ (st2.inUse.contains b = true →
      ((b ∈ (fireDueAux fuel st2).closed ↔ b ∈ st2.closed)
        ∧ (b ∈ st2.pool → b ∈ (fireDueAux fuel st2).pool))) := by
  constructor
  · have hnm : b ∉ st.inUse.filter (fun x => x != b) := by
      intro hm
      have := (List.mem_filter.mp hm).2
      simp at this
    have hcf : (st.inUse.filter (fun x => x != b)).contains b = false := by
      cases hq : (st.inUse.filter (fun x => x != b)).contains b
      · rfl
      · exact absurd (List.elem_iff.mp hq) hnm
    have hob : idleObligation b (st.now + cfg.idleTimeout)
        (stepIdle cfg st (IdleEv.release b)) := by
      rw [idleObligation]
      simp only [stepIdle]
      rw [if_pos (by rw [hcf]; simp [hmin])]
      refine Or.inr ⟨List.mem_append_right _ (List.mem_singleton.mpr rfl), hnm, ?_⟩
      show st.now < st.now + cfg.idleTimeout
      omega
    have hrun := runIdle_obligation cfg b (st.now + cfg.idleTimeout) evs _ hob hnb
    rw [idleObligation] at hrun
    rcases hrun with ⟨hc, hp⟩ | ⟨_, _, hlt⟩
    · exact ⟨hc, hp⟩
    · omega
  · intro hiu
    exact fireDueAux_inuse_no_close fuel st2 b hiu

/-- Witness for the amended claim C5: browser 1 released at `t = 0` out of
pool `[0, 1]` (`minSize = 1`, `idleTimeout = 10`) and never re-borrowed is
closed and gone once time reaches `t = 10`; and due checks never close a
browser that is in use. -/
theorem idle_reclaim_amended_witness :
    (1 ∈ (runIdle idleCfgC (stepIdle idleCfgC idleStC (IdleEv.release 1))
        [IdleEv.advance 10]).closed
      ∧ 1 ∉ (runIdle idleCfgC (stepIdle idleCfgC idleStC (IdleEv.release 1))
        [IdleEv.advance 10]).pool)
  ∧ (idleStC.inUse.contains 1 = true →
      ((1 ∈ (fireDueAux 0 idleStC).closed ↔ 1 ∈ idleStC.closed)
        ∧ (1 ∈ idleStC.pool → 1 ∈ (fireDueAux 0 idleStC).pool))) :=
  idle_reclaim_amended idleCfgC idleStC idleStC 1 [IdleEv.advance 10] 0
    (by decide) (by decide) (by decide) (by decide)
